import Mathlib

/-!
Shallow embedding of the `grud` crate: a dense fixed-size 2-dimensional grid
stored as a flat row-major vector (`src/grid.rs`) together with the `Point`
coordinate abstraction (`src/point.rs`).

Rust panics are modelled as `Except GrudError` failures.  Three distinct panic
sources occur in the crate:
 * the `assert_eq!`/`assert!` invalid-shape assertions in `with_width` and
   `From<Vec<Vec<T>>>` (`GrudError.invalidShape`);
 * the arithmetic panic Rust raises when `%` or `/` is applied with divisor
   zero (`GrudError.divByZero`) — note that `assert_eq!(data.len() % width, 0, …)`
   first evaluates `data.len() % width`, so for `width == 0` the arithmetic
   panic fires with its own message before the assertion message is reached;
 * the slice bounds-check panic of `self.data[index]` (`GrudError.outOfBounds`).

Machine integers (`usize`) are modelled as `Nat`; none of the modelled
operations can overflow `usize` semantics in a way the claims depend on, and
Rust `usize` division/remainder agree with `Nat` division/remainder whenever
the divisor is nonzero (the zero-divisor case is the explicit `divByZero`
failure above, since Rust panics there while `Nat` would not).
-/

/-- Kinds of runtime failure (Rust panics) occurring in the crate. -/
inductive GrudError : Type where
  | invalidShape : GrudError
  | divByZero : GrudError
  | outOfBounds : GrudError
deriving DecidableEq, Repr

/-- The `Point` trait of `src/point.rs`: any type exposing `x` and `y`
coordinate accessors. -/
class Point (P : Type) : Type where
  x : P → Nat
  y : P → Nat

/-- Default method `Point::to_index`: `self.y() * width + self.x()`. -/
def Point.to_index {P : Type} [Point P] (p : P) (width : Nat) : Nat :=
  Point.y p * width + Point.x p

/-- The `impl Point for (usize, usize)`: `x` is `.0`, `y` is `.1`. -/
instance : Point (Nat × Nat) where
  x p := p.1
  y p := p.2

/-- Model of the fixed 2-element array type `[usize; 2]`:
`elem0` is the entry at position 0, `elem1` the entry at position 1. -/
structure Arr2 : Type where
  elem0 : Nat
  elem1 : Nat
deriving DecidableEq, Repr

/-- The `impl Point for [usize; 2]`: `x` is `self[0]`, `y` is `self[1]`. -/
instance : Point Arr2 where
  x p := p.elem0
  y p := p.elem1

/-- Model of `Grid<T>` of `src/grid.rs`: a flat backing vector `data` plus a stored
`width`; the height is derived as `data.len() / width`. -/
structure Grid (T : Type) : Type where
  data : List T
  width : Nat
deriving DecidableEq, Repr

namespace Grid

variable {T : Type}

/-- Model of `Grid::new(width, height, default)`: `vec![default; width * height]`
with the given width.  Total: construction itself has no failure mode. -/
def new (width height : Nat) (default : T) : Grid T :=
  ⟨List.replicate (width * height) default, width⟩

/-- Model of `Grid::with_width(width, data)`: asserts `data.len() % width == 0`.
Rust evaluates `data.len() % width` inside `assert_eq!` first, so when
`width == 0` the remainder-by-zero arithmetic panic fires (with Rust's own
divisor-zero message), and only for `width > 0` with a nonzero remainder does
the invalid-shape assertion message fire. -/
def with_width (width : Nat) (data : List T) : Except GrudError (Grid T) :=
  if width = 0 then
    Except.error GrudError.divByZero
  else if data.length % width = 0 then
    Except.ok ⟨data, width⟩
  else
    Except.error GrudError.invalidShape

/-- Model of `Grid::as_vec`: a view of the flat backing store. -/
def as_vec (g : Grid T) : List T :=
  g.data

/-- Model of `Grid::width`: the stored width. -/
def width_fn (g : Grid T) : Nat :=
  g.width

/-- Model of `Grid::height`: `self.data.len() / self.width()`.  Rust integer division
panics when the divisor is zero, so a grid with `width == 0` fails here. -/
def height (g : Grid T) : Except GrudError Nat :=
  if g.width = 0 then
    Except.error GrudError.divByZero
  else
    Except.ok (g.data.length / g.width)

/-- Model of `Grid::area`: `self.width() * self.height()` (fails when `height` does). -/
def area (g : Grid T) : Except GrudError Nat := do
  let h ← g.height
  pure (g.width * h)

/-- Model of `Index<usize> for Grid<T>`: `&self.data[index]`, with the slice
bounds-check panic when `index` is out of bounds of the backing vector. -/
def index (g : Grid T) (i : Nat) : Except GrudError T :=
  match g.data[i]? with
  | some v => Except.ok v
  | none => Except.error GrudError.outOfBounds

/-- Model of `IndexMut<usize> for Grid<T>` used as a write `grid[i] = v`:
bounds-checked in-place replacement of slot `i`.  On an out-of-bounds index
the write panics and no modified grid results (the store is untouched). -/
def index_set (g : Grid T) (i : Nat) (v : T) : Except GrudError (Grid T) :=
  if i < g.data.length then
    Except.ok ⟨g.data.set i v, g.width⟩
  else
    Except.error GrudError.outOfBounds

/-- Model of `Index<I> for Grid<T>` for `I: Point`: projects the coordinate through
`Point::to_index(self.width())` and delegates to the linear-index read. -/
def index_point {P : Type} [Point P] (g : Grid T) (p : P) : Except GrudError T :=
  g.index (Point.to_index p g.width)

/-- Model of `IndexMut<I> for Grid<T>` for `I: Point` used as a write: projects the
coordinate through `Point::to_index(self.width())` and delegates to the
linear-index write. -/
def index_set_point {P : Type} [Point P] (g : Grid T) (p : P) (v : T) :
    Except GrudError (Grid T) :=
  g.index_set (Point.to_index p g.width) v

/-- Model of `Grid::to_matrix`: for `j in 0..height`, for `i in 0..width`, push a clone
of `self[(i, j)]` (the coordinate read, i.e. linear slot `j * width + i`). -/
def to_matrix (g : Grid T) : Except GrudError (List (List T)) := do
  let h ← g.height
  (List.range h).mapM (fun j => (List.range g.width).mapM (fun i => g.index (j * g.width + i)))

/-- Model of `From<Vec<Vec<T>>> for Grid<T>`: an empty outer vector yields the empty
grid of width 0; otherwise the first row's length becomes the width, every row
must have that length (invalid-shape assertion otherwise), and the rows are
flattened in order into the backing store. -/
def from_matrix (m : List (List T)) : Except GrudError (Grid T) :=
  match m with
  | [] => Except.ok ⟨[], 0⟩
  | r :: rest =>
    if (r :: rest).all (fun v => v.length == r.length) then
      Except.ok ⟨(r :: rest).flatten, r.length⟩
    else
      Except.error GrudError.invalidShape

/-- Model of `IntoIterator for &Grid<T>`: the sequence of elements an immutable
iteration visits, in linear (row-major) order. -/
def iter (g : Grid T) : List T :=
  g.data

/-- Model of `IntoIterator for &mut Grid<T>` driven by a loop that replaces each
visited element `x` by `f x`: one in-order pass over every slot. -/
def iter_mut_apply (g : Grid T) (f : T → T) : Grid T :=
  ⟨g.data.map f, g.width⟩

end Grid

deriving instance DecidableEq for Except

/-! ### Shared helper lemmas -/

/-- Flattening a matrix whose rows all have length `w` gives a list of length
`rows * w`. -/
theorem flatten_length_uniform {T : Type} (M : List (List T)) (w : Nat)
    (hw : ∀ r ∈ M, r.length = w) : M.flatten.length = M.length * w := by
  induction M with
  | nil => simp
  | cons r rest ih =>
    simp only [List.flatten_cons, List.length_append, List.length_cons]
    rw [ih (fun s hs => hw s (List.mem_cons_of_mem _ hs)),
      hw r (List.mem_cons_self _ _)]
    ring

/-- A successful read returns exactly the backing-store element. -/
theorem index_eq_of_lt {T : Type} (g : Grid T) (i : Nat) (h : i < g.data.length) :
    g.index i = Except.ok (g.data.get ⟨i, h⟩) := by
  unfold Grid.index
  rw [List.getElem?_eq_getElem h]
  rfl

/-- A read past the end of the backing store is the out-of-bounds panic. -/
theorem index_eq_oob {T : Type} (g : Grid T) (i : Nat) (h : g.data.length ≤ i) :
    g.index i = Except.error GrudError.outOfBounds := by
  unfold Grid.index
  rw [List.getElem?_eq_none h]

/-! ### C1 -/

/-- C1 counterexample: `with_width 0 [0]` does fail, but with the unguarded
remainder-by-zero arithmetic panic, not the invalid-shape assertion error. -/
theorem with_width_zero_width_counterexample :
    Grid.with_width 0 [(0 : Nat)] = Except.error GrudError.divByZero ∧
    Grid.with_width 0 [(0 : Nat)] ≠ Except.error GrudError.invalidShape := by
  constructor
  · rfl
  · decide

/-- C1 (amended): for every width and flat sequence `S` whose length is not
evenly divisible by `width` (including `width = 0` with nonempty `S`),
`with_width` fails and returns no grid; for `width > 0` the failure is the
invalid-shape assertion error, but for `width = 0` the divide-by-zero is not
guarded and the failure is the remainder-by-zero arithmetic panic instead. -/
theorem with_width_not_divisible_fails (width : Nat) (S : List Nat)
    (h : ¬ width ∣ S.length) :
    Grid.with_width width S =
      Except.error (if width = 0 then GrudError.divByZero else GrudError.invalidShape) := by
  unfold Grid.with_width
  by_cases hw : width = 0
  · simp [hw]
  · have hmod : ¬ S.length % width = 0 := fun hc => h (Nat.dvd_of_mod_eq_zero hc)
    simp [hw, hmod]

/-- C1 witness: the amended theorem applied at `width = 2`, `S = [1, 2, 3]`. -/
theorem with_width_not_divisible_fails_witness :
    Grid.with_width 2 [1, 2, 3] =
      Except.error (if 2 = 0 then GrudError.divByZero else GrudError.invalidShape) :=
  with_width_not_divisible_fails 2 [1, 2, 3] (by decide)

/-! ### C2 -/

/-- C2 counterexample: `new(0, 1, 0)` builds a grid whose `height()` is the
divide-by-zero panic, not `1`. -/
theorem new_zero_width_counterexample :
    (Grid.new 0 1 (0 : Nat)).height = Except.error GrudError.divByZero ∧
    (Grid.new 0 1 (0 : Nat)).height ≠ Except.ok 1 ∧
    (Grid.new 0 1 (0 : Nat)).area ≠ Except.ok 0 := by
  refine ⟨rfl, by decide, by decide⟩

/-- C2 (amended): `new` always succeeds, stores exactly `width * height`
copies of the fill value and reports the requested width; when `width > 0`,
`height()` and `area()` report the requested height and `width * height`
(so zero height yields an empty grid of area 0), but when `width = 0` the
grid is empty while `height()` and `area()` fail with the divide-by-zero
panic instead of returning values. -/
theorem new_spec (width height v : Nat) :
    (Grid.new width height v).width = width ∧
    (Grid.new width height v).as_vec.length = width * height ∧
    (∀ x ∈ (Grid.new width height v).as_vec, x = v) ∧
    (0 < width →
      (Grid.new width height v).height = Except.ok height ∧
      (Grid.new width height v).area = Except.ok (width * height)) ∧
    (width = 0 →
      (Grid.new width height v).as_vec = [] ∧
      (Grid.new width height v).height = Except.error GrudError.divByZero ∧
      (Grid.new width height v).area = Except.error GrudError.divByZero) := by
  refine ⟨rfl, by simp [Grid.new, Grid.as_vec], ?_, ?_, ?_⟩
  · intro x hx
    exact List.eq_of_mem_replicate hx
  · intro hpos
    have hne : width ≠ 0 := hpos.ne'
    constructor
    · simp [Grid.new, Grid.height, hne, Nat.mul_div_cancel_left _ hpos]
    · simp [Grid.new, Grid.area, Grid.height, hne, Nat.mul_div_cancel_left _ hpos]
  · intro hz
    subst hz
    refine ⟨by simp [Grid.new, Grid.as_vec], rfl, rfl⟩

/-- C2 witness: the amended theorem applied at `width = 2`, `height = 3`,
fill value `7`. -/
theorem new_spec_witness :
    (Grid.new 2 3 (7 : Nat)).height = Except.ok 3 ∧
    (Grid.new 2 3 (7 : Nat)).area = Except.ok (2 * 3) :=
  (new_spec 2 3 7).2.2.2.1 (by decide)

/-! ### C6 -/

/-- C6: for every flat sequence `S` and `width > 0` dividing its length,
`with_width` succeeds, `height()` is `len(S) / width`, and `as_vec` returns
exactly `S`. -/
theorem with_width_divides_ok (width : Nat) (S : List Nat) (hw : 0 < width)
    (hdiv : S.length % width = 0) :
    ∃ g : Grid Nat, Grid.with_width width S = Except.ok g ∧
      g.height = Except.ok (S.length / width) ∧ g.as_vec = S := by
  refine ⟨⟨S, width⟩, ?_, ?_, rfl⟩
  · simp [Grid.with_width, hw.ne', hdiv]
  · simp [Grid.height, hw.ne']

/-- C6 witness: the theorem applied at `width = 2`, `S = [1, 2, 3, 4, 5, 6]`. -/
theorem with_width_divides_ok_witness :
    ∃ g : Grid Nat, Grid.with_width 2 [1, 2, 3, 4, 5, 6] = Except.ok g ∧
      g.height = Except.ok ([1, 2, 3, 4, 5, 6].length / 2) ∧
      g.as_vec = [1, 2, 3, 4, 5, 6] :=
  with_width_divides_ok 2 [1, 2, 3, 4, 5, 6] (by decide) (by decide)

/-! ### C4 -/

/-- C4: on any grid satisfying the construction invariant (width divides the
store length), once `area()` reports a value `a`, every read or write at a
linear index `i ≥ a` — and every coordinate read or write projecting to such
an `i` — fails with the out-of-bounds panic, returning no value and no
modified grid; this covers every access on an empty grid with `area() = 0`. -/
theorem oob_access_fails (g : Grid Nat) (v i a : Nat)
    (hwf : g.width ∣ g.data.length)
    (ha : g.area = Except.ok a) (hi : a ≤ i) :
    g.index i = Except.error GrudError.outOfBounds ∧
    g.index_set i v = Except.error GrudError.outOfBounds ∧
    (∀ x y : Nat, Point.to_index (x, y) g.width = i →
      g.index_point (x, y) = Except.error GrudError.outOfBounds ∧
      g.index_set_point (x, y) v = Except.error GrudError.outOfBounds) := by
  have hwne : g.width ≠ 0 := by
    intro hz
    rw [Grid.area, Grid.height, if_pos hz] at ha
    exact absurd ha (by simp [Bind.bind, Except.bind])
  have hlen : a = g.data.length := by
    rw [Grid.area, Grid.height, if_neg hwne] at ha
    simp only [Bind.bind, Except.bind, pure, Except.pure, Except.ok.injEq] at ha
    rw [← ha, Nat.mul_div_cancel' hwf]
  subst hlen
  have hread : g.index i = Except.error GrudError.outOfBounds := index_eq_oob g i hi
  have hwrite : g.index_set i v = Except.error GrudError.outOfBounds := by
    unfold Grid.index_set
    rw [if_neg (by omega)]
  refine ⟨hread, hwrite, ?_⟩
  intro x y hxy
  unfold Grid.index_point Grid.index_set_point
  rw [hxy]
  exact ⟨hread, hwrite⟩

/-- C4 witness: the theorem applied to the empty 2-wide grid at index 0 and a
coordinate projecting to index 0. -/
theorem oob_access_fails_witness :
    (Grid.mk ([] : List Nat) 2).index 0 = Except.error GrudError.outOfBounds ∧
    (Grid.mk ([] : List Nat) 2).index_set 0 5 = Except.error GrudError.outOfBounds :=
  ⟨(oob_access_fails ⟨[], 2⟩ 5 0 0 (by decide) (by rfl) (by decide)).1,
   (oob_access_fails ⟨[], 2⟩ 5 0 0 (by decide) (by rfl) (by decide)).2.1⟩

/-! ### C5 -/

/-- C5: on any grid satisfying the construction invariant, for every valid
coordinate (`x < width()` and `y < height()`), the coordinate read equals the
linear read at `y * width + x`, the fixed 2-element array form `[x, y]` reads
identically to the ordered pair `(x, y)`, and the common result is a
successful read of a stored element. -/
theorem coord_read_eq_linear (g : Grid Nat) (x y h : Nat)
    (hwf : g.width ∣ g.data.length)
    (hh : g.height = Except.ok h) (hx : x < g.width) (hy : y < h) :
    g.index_point (x, y) = g.index (y * g.width + x) ∧
    g.index_point (Arr2.mk x y) = g.index_point (x, y) ∧
    (∃ hlt : y * g.width + x < g.data.length,
      g.index_point (x, y) = Except.ok (g.data.get ⟨y * g.width + x, hlt⟩)) := by
  have hwne : g.width ≠ 0 := by
    intro hz
    rw [Grid.height, if_pos hz] at hh
    exact absurd hh (by simp)
  have hhval : h = g.data.length / g.width := by
    rw [Grid.height, if_neg hwne] at hh
    exact (Except.ok.injEq _ _ ▸ hh.symm)
  have hlt : y * g.width + x < g.data.length := by
    have h1 : y * g.width + x < (y + 1) * g.width := by
      have := hx
      calc y * g.width + x < y * g.width + g.width := by omega
      _ = (y + 1) * g.width := by ring
    have h2 : (y + 1) * g.width ≤ h * g.width :=
      Nat.mul_le_mul_right _ (by omega)
    have h3 : h * g.width = g.data.length := by
      rw [hhval, Nat.div_mul_cancel hwf]
    omega
  refine ⟨rfl, rfl, hlt, ?_⟩
  have : Point.to_index (x, y) g.width = y * g.width + x := rfl
  unfold Grid.index_point
  rw [this]
  exact index_eq_of_lt g _ hlt

/-- C5 witness: the theorem applied to the 2-wide grid on `[1, 2, 3, 4, 5, 6]`
at coordinate `(1, 2)`, whose linear index is `2 * 2 + 1 = 5`. -/
theorem coord_read_eq_linear_witness :
    (Grid.mk [1, 2, 3, 4, 5, 6] 2).index_point ((1 : Nat), (2 : Nat)) =
      (Grid.mk [1, 2, 3, 4, 5, 6] 2).index (2 * 2 + 1) ∧
    (Grid.mk [1, 2, 3, 4, 5, 6] 2).index_point (Arr2.mk 1 2) =
      (Grid.mk [1, 2, 3, 4, 5, 6] 2).index_point ((1 : Nat), (2 : Nat)) :=
  ⟨(coord_read_eq_linear ⟨[1, 2, 3, 4, 5, 6], 2⟩ 1 2 3 (by decide) (by rfl)
      (by decide) (by decide)).1,
   (coord_read_eq_linear ⟨[1, 2, 3, 4, 5, 6], 2⟩ 1 2 3 (by decide) (by rfl)
      (by decide) (by decide)).2.1⟩

/-! ### C8 -/

/-- C8: writing `v` at any in-bounds linear index `i` (or through any
coordinate projecting to `i`) succeeds, a subsequent read at `i` returns `v`,
and every other location reads exactly as before the write. -/
theorem write_then_read (g : Grid Nat) (i v : Nat) (hi : i < g.data.length) :
    ∃ g' : Grid Nat, g.index_set i v = Except.ok g' ∧
      g'.index i = Except.ok v ∧
      (∀ j, j ≠ i → g'.index j = g.index j) ∧
      (∀ x y : Nat, Point.to_index (x, y) g.width = i →
        g.index_set_point (x, y) v = Except.ok g') := by
  refine ⟨⟨g.data.set i v, g.width⟩, ?_, ?_, ?_, ?_⟩
  · unfold Grid.index_set
    rw [if_pos hi]
  · unfold Grid.index
    simp only
    rw [List.getElem?_set_self (by simpa using hi)]
  · intro j hj
    unfold Grid.index
    simp only
    rw [List.getElem?_set_ne (fun he => hj he.symm)]
  · intro x y hxy
    unfold Grid.index_set_point
    rw [hxy]
    unfold Grid.index_set
    rw [if_pos hi]

/-- C8 witness: the theorem applied to the 2-wide grid on `[1, 2, 3, 4]`,
writing `9` at index 2 and checking index 2 and untouched index 1. -/
theorem write_then_read_witness :
    ∃ g' : Grid Nat, (Grid.mk [1, 2, 3, 4] 2).index_set 2 9 = Except.ok g' ∧
      g'.index 2 = Except.ok 9 := by
  obtain ⟨g', h1, h2, -, -⟩ := write_then_read ⟨[1, 2, 3, 4], 2⟩ 2 9 (by decide)
  exact ⟨g', h1, h2⟩

/-! ### C10 -/

/-- C10: coordinate access performs no bounds check of `x` against the width:
whenever `x ≥ width()` but the projected linear index `y * width + x` is
still below `area()`, the coordinate read succeeds and returns the element at
that linear index, the coordinate write succeeds, and the row actually hit
(`(y * width + x) / width`) differs from `y`. -/
theorem coord_access_no_width_check (g : Grid Nat) (x y a v : Nat)
    (hwf : g.width ∣ g.data.length) (ha : g.area = Except.ok a)
    (hx : g.width ≤ x) (hi : y * g.width + x < a) :
    (∃ t, g.index_point (x, y) = Except.ok t ∧
      g.index (y * g.width + x) = Except.ok t) ∧
    (∃ g' : Grid Nat, g.index_set_point (x, y) v = Except.ok g') ∧
    (y * g.width + x) / g.width ≠ y := by
  have hwne : g.width ≠ 0 := by
    intro hz
    rw [Grid.area, Grid.height, if_pos hz] at ha
    exact absurd ha (by simp [Bind.bind, Except.bind])
  have hlen : a = g.data.length := by
    rw [Grid.area, Grid.height, if_neg hwne] at ha
    simp only [Bind.bind, Except.bind, pure, Except.pure, Except.ok.injEq] at ha
    rw [← ha, Nat.mul_div_cancel' hwf]
  subst hlen
  have hproj : Point.to_index (x, y) g.width = y * g.width + x := rfl
  refine ⟨⟨g.data.get ⟨y * g.width + x, hi⟩, ?_, index_eq_of_lt g _ hi⟩, ?_, ?_⟩
  · unfold Grid.index_point
    rw [hproj]
    exact index_eq_of_lt g _ hi
  · refine ⟨⟨g.data.set (y * g.width + x) v, g.width⟩, ?_⟩
    unfold Grid.index_set_point
    rw [hproj]
    unfold Grid.index_set
    rw [if_pos hi]
  · have hcomm : y * g.width + x = x + y * g.width := by ring
    rw [hcomm, Nat.add_mul_div_right _ _ (Nat.pos_of_ne_zero hwne)]
    have hone : 1 ≤ x / g.width :=
      (Nat.one_le_div_iff (Nat.pos_of_ne_zero hwne)).mpr hx
    omega

/-- C10 witness: the theorem applied to the 2-wide grid on `[1, 2, 3, 4, 5, 6]`
at coordinate `(2, 0)`: `x = 2` is not below the width 2, yet the access
succeeds and resolves to linear index 2, which lies in row 1, not row 0. -/
theorem coord_access_no_width_check_witness :
    (∃ t, (Grid.mk [1, 2, 3, 4, 5, 6] 2).index_point ((2 : Nat), (0 : Nat)) =
        Except.ok t ∧
      (Grid.mk [1, 2, 3, 4, 5, 6] 2).index (0 * 2 + 2) = Except.ok t) ∧
    (0 * 2 + 2) / 2 ≠ 0 := by
  obtain ⟨h1, -, h3⟩ :=
    coord_access_no_width_check ⟨[1, 2, 3, 4, 5, 6], 2⟩ 2 0 6 7 (by decide)
      (by rfl) (by decide) (by decide)
  exact ⟨h1, h3⟩

/-! ### C7 -/

/-- C7: on any grid satisfying the construction invariant whose `area()` is
`a`, immutable iteration visits exactly `a` elements, in linear (row-major)
order — the `i`-th visited element is exactly `grid[i]` — any two fresh
iteration passes visit the same sequence (iteration is a pure read), and a
mutable-iteration pass that increments each visited element leaves the flat
store with every element incremented exactly once. -/
theorem iter_spec (g : Grid Nat) (a : Nat)
    (hwf : g.width ∣ g.data.length) (ha : g.area = Except.ok a) :
    g.iter.length = a ∧
    (∀ i, ∀ hi : i < g.iter.length, g.index i = Except.ok (g.iter.get ⟨i, hi⟩)) ∧
    g.iter = g.iter ∧
    (g.iter_mut_apply (fun t => t + 1)).as_vec = g.as_vec.map (fun t => t + 1) := by
  have hwne : g.width ≠ 0 := by
    intro hz
    rw [Grid.area, Grid.height, if_pos hz] at ha
    exact absurd ha (by simp [Bind.bind, Except.bind])
  have hlen : a = g.data.length := by
    rw [Grid.area, Grid.height, if_neg hwne] at ha
    simp only [Bind.bind, Except.bind, pure, Except.pure, Except.ok.injEq] at ha
    rw [← ha, Nat.mul_div_cancel' hwf]
  subst hlen
  refine ⟨rfl, ?_, rfl, rfl⟩
  intro i hi
  exact index_eq_of_lt g i hi

/-- C7 witness: the theorem applied to the 2-wide grid on `[1, 2, 3, 4]`. -/
theorem iter_spec_witness :
    (Grid.mk [1, 2, 3, 4] 2).iter.length = 4 ∧
    ((Grid.mk [1, 2, 3, 4] 2).iter_mut_apply (fun t => t + 1)).as_vec =
      (Grid.mk [1, 2, 3, 4] 2).as_vec.map (fun t => t + 1) := by
  obtain ⟨h1, -, -, h4⟩ := iter_spec ⟨[1, 2, 3, 4], 2⟩ 4 (by decide) (by rfl)
  exact ⟨h1, h4⟩

/-! ### C3: helper lemmas about `mapM` over `Except` -/

/-- Congruence for `mapM` over `Except`. -/
theorem mapM_congr_ex {E A B : Type} (l : List A) (f f' : A → Except E B)
    (h : ∀ a ∈ l, f a = f' a) : l.mapM f = l.mapM f' := by
  induction l with
  | nil => rfl
  | cons a l ih =>
    rw [List.mapM_cons, List.mapM_cons, h a (List.mem_cons_self _ _),
      ih (fun b hb => h b (List.mem_cons_of_mem _ hb))]

/-- Mapping first then running `mapM` fuses the functions. -/
theorem mapM_map_ex {E A B C : Type} (l : List A) (f : A → B) (f' : B → Except E C) :
    (l.map f).mapM f' = l.mapM (fun a => f' (f a)) := by
  induction l with
  | nil => rfl
  | cons a l ih =>
    rw [List.map_cons, List.mapM_cons, List.mapM_cons, ih]

/-- Reading index `w + k` of an appended store with first block of length `w`
reads index `k` of the second block (the stored width is irrelevant to the
linear read). -/
theorem index_append_drop {T : Type} (r rest : List T) (w w' k : Nat)
    (hr : r.length = w) :
    Grid.index ⟨r ++ rest, w'⟩ (w + k) = Grid.index ⟨rest, w'⟩ k := by
  subst hr
  unfold Grid.index
  simp only
  have hsub : r.length + k - r.length = k := by omega
  rw [List.getElem?_append_right (Nat.le_add_right _ _), hsub]

/-- Reading an index inside the first block of an appended store reads the
first block. -/
theorem index_append_left {T : Type} (r rest : List T) (w' i : Nat)
    (hi : i < r.length) :
    Grid.index ⟨r ++ rest, w'⟩ i = Grid.index ⟨r, w'⟩ i := by
  unfold Grid.index
  simp only
  rw [List.getElem?_append_left hi]

/-- Reading the head of a nonempty store at index 0 yields the head. -/
theorem index_cons_zero {T : Type} (a : T) (r : List T) (w' : Nat) :
    Grid.index ⟨a :: r, w'⟩ 0 = Except.ok a := by
  unfold Grid.index
  simp only
  rw [List.getElem?_cons_zero]

/-- Reading a nonempty store at a successor index reads the tail. -/
theorem index_cons_succ {T : Type} (a : T) (r : List T) (w' i : Nat) :
    Grid.index ⟨a :: r, w'⟩ (i + 1) = Grid.index ⟨r, w'⟩ i := by
  unfold Grid.index
  simp only
  rw [List.getElem?_cons_succ]

/-- Reading back a whole row: `mapM` of the linear reads `0, …, len - 1` over
a store holding exactly that row returns the row. -/
theorem mapM_index_self {T : Type} (r : List T) (w' : Nat) :
    (List.range r.length).mapM (fun i => Grid.index ⟨r, w'⟩ i) = Except.ok r := by
  induction r with
  | nil => rfl
  | cons a r ih =>
    rw [List.length_cons, List.range_succ_eq_map, List.mapM_cons, mapM_map_ex]
    have hstep : (List.range r.length).mapM
        (fun i => Grid.index ⟨a :: r, w'⟩ (Nat.succ i)) =
        (List.range r.length).mapM (fun i => Grid.index ⟨r, w'⟩ i) := by
      apply mapM_congr_ex
      intro i hi
      exact index_cons_succ a r w' i
    rw [hstep, ih, index_cons_zero]
    rfl

/-- Reading back all rows: over a store that is the flattening of a matrix
with uniform row length `w`, the nested `mapM` of linear reads at
`j * w + i` reconstructs the matrix. -/
theorem mapM_index_rows {T : Type} (M : List (List T)) (w w' : Nat)
    (hw : ∀ r ∈ M, r.length = w) :
    (List.range M.length).mapM
      (fun j => (List.range w).mapM
        (fun i => Grid.index ⟨M.flatten, w'⟩ (j * w + i))) = Except.ok M := by
  induction M with
  | nil => rfl
  | cons r rest ih =>
    have hr : r.length = w := hw r (List.mem_cons_self _ _)
    have hw' : ∀ s ∈ rest, s.length = w :=
      fun s hs => hw s (List.mem_cons_of_mem _ hs)
    rw [List.length_cons, List.range_succ_eq_map, List.mapM_cons, mapM_map_ex]
    have h0 : (List.range w).mapM
        (fun i => Grid.index ⟨(r :: rest).flatten, w'⟩ (0 * w + i)) =
        Except.ok r := by
      have hcong : ∀ i ∈ List.range w,
          Grid.index ⟨(r :: rest).flatten, w'⟩ (0 * w + i) =
          Grid.index ⟨r, w'⟩ i := by
        intro i hi
        have hiw : i < w := List.mem_range.mp hi
        have : (0 : Nat) * w + i = i := by omega
        rw [this, List.flatten_cons, index_append_left r rest.flatten w' i (by omega)]
      rw [mapM_congr_ex _ _ _ hcong, ← hr, mapM_index_self]
    have hsucc : (List.range rest.length).mapM
        (fun j => (List.range w).mapM
          (fun i => Grid.index ⟨(r :: rest).flatten, w'⟩ (Nat.succ j * w + i))) =
        Except.ok rest := by
      have hcong : ∀ j ∈ List.range rest.length,
          (List.range w).mapM
            (fun i => Grid.index ⟨(r :: rest).flatten, w'⟩ (Nat.succ j * w + i)) =
          (List.range w).mapM
            (fun i => Grid.index ⟨rest.flatten, w'⟩ (j * w + i)) := by
        intro j hj
        apply mapM_congr_ex
        intro i hi
        have harith : Nat.succ j * w + i = w + (j * w + i) := by
          rw [Nat.succ_eq_add_one]
          ring
        rw [harith, List.flatten_cons, index_append_drop r rest.flatten w w' _ hr]
      rw [mapM_congr_ex _ _ _ hcong, ih hw']
    rw [h0, hsucc]
    rfl

/-- Running `to_matrix` on a grid holding the flattening of a matrix with uniform
positive row length `w` (and stored width `w`) recovers the matrix. -/
theorem to_matrix_flatten {T : Type} (M : List (List T)) (w : Nat)
    (hwpos : 0 < w) (hw : ∀ r ∈ M, r.length = w) :
    Grid.to_matrix ⟨M.flatten, w⟩ = Except.ok M := by
  unfold Grid.to_matrix Grid.height
  simp only [hwpos.ne', if_false, ite_false, reduceIte]
  rw [flatten_length_uniform M w hw, Nat.mul_div_cancel _ hwpos]
  exact mapM_index_rows M w w hw

/-- C3 counterexample: the empty matrix is well-formed and `from_matrix`
accepts it (yielding the width-0 empty grid), but `to_matrix` on that grid
fails with the divide-by-zero panic (`height()` divides by the zero width),
so the round trip does not return the empty matrix. -/
theorem roundtrip_empty_counterexample :
    Grid.from_matrix ([] : List (List Nat)) = Except.ok ⟨[], 0⟩ ∧
    (Grid.from_matrix ([] : List (List Nat))).bind Grid.to_matrix =
      Except.error GrudError.divByZero ∧
    (Grid.from_matrix ([] : List (List Nat))).bind Grid.to_matrix ≠
      Except.ok ([] : List (List Nat)) :=
  ⟨rfl, rfl, by decide⟩

/-- C3 (amended): for every non-empty matrix `M` all of whose rows have the
same positive length, `to_matrix (from_matrix M)` returns `M` unchanged; the
law fails for the empty matrix (and for matrices of empty rows), where
`from_matrix` succeeds with a width-0 grid but `to_matrix` fails with the
divide-by-zero panic in `height()`. -/
theorem from_to_matrix_roundtrip (M : List (List Nat)) (w : Nat) (hwpos : 0 < w)
    (hrows : ∀ r ∈ M, r.length = w) (hne : M ≠ []) :
    (Grid.from_matrix M).bind Grid.to_matrix = Except.ok M := by
  match M, hne with
  | r :: rest, _ =>
    have hr : r.length = w := hrows r (List.mem_cons_self _ _)
    have hall : (r :: rest).all (fun v => v.length == r.length) = true := by
      rw [List.all_eq_true]
      intro s hs
      exact beq_iff_eq.mpr (by rw [hrows s hs, hr])
    have hfm : Grid.from_matrix (r :: rest) =
        Except.ok ⟨(r :: rest).flatten, r.length⟩ := by
      show (if ((r :: rest).all fun v => v.length == r.length) = true then
          Except.ok (Grid.mk (r :: rest).flatten r.length)
        else Except.error GrudError.invalidShape) =
        Except.ok ⟨(r :: rest).flatten, r.length⟩
      rw [if_pos hall]
    rw [hfm]
    show Grid.to_matrix ⟨(r :: rest).flatten, r.length⟩ = Except.ok (r :: rest)
    rw [hr]
    exact to_matrix_flatten (r :: rest) w hwpos hrows

/-- C3 witness: the amended round trip applied to `[[1,2],[3,4],[5,6]]`. -/
theorem from_to_matrix_roundtrip_witness :
    (Grid.from_matrix [[1, 2], [3, 4], [5, 6]]).bind Grid.to_matrix =
      Except.ok [[1, 2], [3, 4], [5, 6]] :=
  from_to_matrix_roundtrip [[1, 2], [3, 4], [5, 6]] 2 (by decide) (by decide)
    (by decide)

/-! ### C9 -/

/-- Grids reachable through the public interface: a successful constructor
(`new`, `with_width`, `From<Vec<Vec<T>>>`), followed by any sequence of
writes (by linear index or by coordinate) and mutable-iteration passes.
Reads, shape queries, conversions out of the grid and immutable iteration do
not produce grids, so they need no constructors here. -/
inductive Reachable {T : Type} : Grid T → Prop where
  | of_new (w h : Nat) (v : T) : Reachable (Grid.new w h v)
  | of_with_width (w : Nat) (data : List T) (g : Grid T)
      (h : Grid.with_width w data = Except.ok g) : Reachable g
  | of_from_matrix (m : List (List T)) (g : Grid T)
      (h : Grid.from_matrix m = Except.ok g) : Reachable g
  | of_write (g : Grid T) (i : Nat) (v : T) (g' : Grid T)
      (hg : Reachable g) (h : g.index_set i v = Except.ok g') : Reachable g'
  | of_write_point (g : Grid T) (x y : Nat) (v : T) (g' : Grid T)
      (hg : Reachable g) (h : g.index_set_point (x, y) v = Except.ok g') :
      Reachable g'
  | of_iter_mut (g : Grid T) (f : T → T) (hg : Reachable g) :
      Reachable (g.iter_mut_apply f)

/-- Every reachable grid's width divides its backing-store length. -/
theorem reachable_width_dvd {T : Type} (g : Grid T) (hg : Reachable g) :
    g.width ∣ g.data.length := by
  induction hg with
  | of_new w h v => exact ⟨h, by simp [Grid.new]⟩
  | of_with_width w data g h =>
    unfold Grid.with_width at h
    by_cases hw : w = 0
    · rw [if_pos hw] at h
      exact absurd h (by simp)
    · rw [if_neg hw] at h
      by_cases hmod : data.length % w = 0
      · rw [if_pos hmod] at h
        cases h
        exact Nat.dvd_of_mod_eq_zero hmod
      · rw [if_neg hmod] at h
        exact absurd h (by simp)
  | of_from_matrix m g h =>
    match m, h with
    | [], h =>
      have hg0 : Grid.mk ([] : List T) 0 = g := by
        exact Except.ok.inj h
      rw [← hg0]
      exact dvd_refl 0
    | r :: rest, h =>
      have hstep : Grid.from_matrix (r :: rest) =
          (if ((r :: rest).all fun v => v.length == r.length) = true then
            Except.ok (Grid.mk (r :: rest).flatten r.length)
          else Except.error GrudError.invalidShape) := rfl
      rw [hstep] at h
      split at h
      · rename_i hall
        cases h
        have hrows : ∀ s ∈ r :: rest, s.length = r.length := by
          intro s hs
          exact beq_iff_eq.mp (List.all_eq_true.mp hall s hs)
        refine ⟨(r :: rest).length, ?_⟩
        rw [flatten_length_uniform (r :: rest) r.length hrows]
        ring
      · exact absurd h (by simp)
  | of_write g i v g' hg h ih =>
    unfold Grid.index_set at h
    split at h
    · cases h
      simpa using ih
    · exact absurd h (by simp)
  | of_write_point g x y v g' hg h ih =>
    unfold Grid.index_set_point Grid.index_set at h
    split at h
    · cases h
      simpa using ih
    · exact absurd h (by simp)
  | of_iter_mut g f hg ih =>
    simpa [Grid.iter_mut_apply] using ih

/-- C9 counterexample: converting the empty matrix yields a reachable grid
(width 0, empty store) on which `height()` — and hence the product
`width() * height()` computed by `area()` — fails with the divide-by-zero
panic, so `length == width * height` does not hold as an evaluable equality
on every reachable grid. -/
theorem invariant_zero_width_counterexample :
    Grid.from_matrix ([] : List (List Nat)) = Except.ok ⟨[], 0⟩ ∧
    (Grid.mk ([] : List Nat) 0).height = Except.error GrudError.divByZero ∧
    (Grid.mk ([] : List Nat) 0).area = Except.error GrudError.divByZero :=
  ⟨rfl, rfl, rfl⟩

/-- C9 (amended): for every grid reachable through the public interface, the
width divides the backing-store length; whenever `width > 0` this gives the
invariant in evaluable form — `height()` returns `length / width`,
`length == width * height()`, and `area()` returns exactly the length — while
for `width == 0` the store is empty but `height()` (hence `width * height`)
fails with the divide-by-zero panic; moreover no post-construction operation
(write by index or coordinate, mutable iteration) changes the length or the
width. -/
theorem reachable_shape_invariant {T : Type} (g : Grid T) (hg : Reachable g) :
    g.width ∣ g.data.length ∧
    (0 < g.width →
      g.height = Except.ok (g.data.length / g.width) ∧
      g.data.length = g.width * (g.data.length / g.width) ∧
      g.area = Except.ok g.data.length) ∧
    (g.width = 0 → g.data = [] ∧ g.height = Except.error GrudError.divByZero) ∧
    (∀ i v g', g.index_set i v = Except.ok g' →
      g'.width = g.width ∧ g'.data.length = g.data.length) ∧
    (∀ f, (g.iter_mut_apply f).width = g.width ∧
      (g.iter_mut_apply f).data.length = g.data.length) := by
  have hdvd := reachable_width_dvd g hg
  refine ⟨hdvd, ?_, ?_, ?_, ?_⟩
  · intro hpos
    have hne : g.width ≠ 0 := hpos.ne'
    refine ⟨by rw [Grid.height, if_neg hne], (Nat.mul_div_cancel' hdvd).symm, ?_⟩
    rw [Grid.area, Grid.height, if_neg hne]
    simp only [Bind.bind, Except.bind, pure, Except.pure]
    rw [Nat.mul_div_cancel' hdvd]
  · intro hz
    have hlen : g.data.length = 0 := Nat.eq_zero_of_zero_dvd (hz ▸ hdvd)
    exact ⟨List.eq_nil_of_length_eq_zero hlen, by rw [Grid.height, if_pos hz]⟩
  · intro i v g' h
    unfold Grid.index_set at h
    split at h
    · cases h
      exact ⟨rfl, by simp⟩
    · exact absurd h (by simp)
  · intro f
    exact ⟨rfl, by simp [Grid.iter_mut_apply]⟩

/-- C9 witness: the amended theorem applied to the reachable grid
`new(2, 3, 0)`. -/
theorem reachable_shape_invariant_witness :
    (Grid.new 2 3 (0 : Nat)).width ∣ (Grid.new 2 3 (0 : Nat)).data.length :=
  (reachable_shape_invariant (Grid.new 2 3 0) (Reachable.of_new 2 3 0)).1
